import Mathlib

/-!
Verification of the stepped-frequency acquisition sequencer
(`scos_actions/actions/acquire_stepped_freq_tdomain_iq.py`).

The Python class `SteppedFrequencyTimeDomainIqAcquisition` is embedded
shallowly: numeric parameters (center frequencies in Hz, gains in dB,
sample rates in Hz, durations in ms) are rationals, Python lists are Lean
lists, exceptions are an explicit error type, and the entry point
`__call__` is modelled as a function returning an event trace together
with the published results.  Methods inherited from classes outside this
module (`test_required_components`, the SigMF metadata builders) are
modelled from the specification and say so in their doc comments.
-/

namespace ScosSteppedIq

/-- One step-parameter record, `dict(zip(parameter_names, params))` in the
source: `("center_frequency", "gain", "sample_rate", "duration_ms")`. -/
structure MeasurementParams where
  center_frequency : ℚ
  gain : ℚ
  sample_rate : ℚ
  duration_ms : ℚ
deriving DecidableEq, Repr

/-- The Python exceptions the embedded code can raise.
`typeError` is a `TypeError` raised with an explicit message (the
constructor's "Wrong number of …" message); `compareTypeError` is the
`TypeError` CPython's `list.sort` raises when a `None` sort key is
compared with `<`; both are `TypeError` at runtime and are kept separate
here only because their messages differ. -/
inductive PyError where
  | typeError (msg : String)
  | compareTypeError
  | attributeError (attr : String)
  | indexError
  | preconditionError
deriving DecidableEq, Repr

/-- A 4-tuple produced by `zip_longest`: missing positions are `None`. -/
abbrev ParamTuple := Option ℚ × Option ℚ × Option ℚ × Option ℚ

/-- Pad a list to length `n` with `none`, after wrapping the elements in
`some`; this is how `itertools.zip_longest` treats a short argument. -/
def padTo (n : Nat) (l : List ℚ) : List (Option ℚ) :=
  l.map some ++ List.replicate (n - l.length) none

/-- Length of the `zip_longest` result: the longest of the four inputs. -/
def maxLen4 (a b c d : List ℚ) : Nat :=
  max (max a.length b.length) (max c.length d.length)

/-- `list(zip_longest(fcs, gains, sample_rates, durations_ms))`
(source line 83): tuples up to the longest input, shorter inputs padded
with `None`. -/
def zipLongest4 (fcs gains sample_rates durations_ms : List ℚ) : List ParamTuple :=
  let n := maxLen4 fcs gains sample_rates durations_ms
  (padTo n fcs).zip ((padTo n gains).zip ((padTo n sample_rates).zip (padTo n durations_ms)))

/-- `None in params` for a zipped 4-tuple. -/
def hasNone (t : ParamTuple) : Prop :=
  t.1 = none ∨ t.2.1 = none ∨ t.2.2.1 = none ∨ t.2.2.2 = none

instance : DecidablePred hasNone := fun t =>
  inferInstanceAs (Decidable (t.1 = none ∨ t.2.1 = none ∨ t.2.2.1 = none ∨ t.2.2.2 = none))

/-- `parameter_names[params.index(None)]`: the name of the first `None`
position of the tuple (source lines 77 and 88). -/
def firstNoneName (t : ParamTuple) : String :=
  if t.1 = none then "center_frequency"
  else if t.2.1 = none then "gain"
  else if t.2.2.1 = none then "sample_rate"
  else "duration_ms"

/-- The sort key `sortFrequency` (source lines 80–81): the tuple's first
component.  The `getD 0` default is never consulted observably: a list
holding a `none` key either has length ≤ 1 (and sorting it performs no
comparison) or makes the embedded constructor fail before sorting. -/
def fcKey (t : ParamTuple) : ℚ := t.1.getD 0

/-- Comparison used by the stable sort on line 84. -/
def fcLE (a b : ParamTuple) : Prop := fcKey a ≤ fcKey b

instance : DecidableRel fcLE := fun a b =>
  inferInstanceAs (Decidable (fcKey a ≤ fcKey b))

instance : IsTotal ParamTuple fcLE := ⟨fun a b => le_total (fcKey a) (fcKey b)⟩

instance : IsTrans ParamTuple fcLE := ⟨fun _ _ _ h h' => le_trans h h'⟩

/-- The constructor's per-tuple loop (source lines 86–92).  When a tuple
holds a `None` the `raise TypeError` on line 90 fires; the
`self.sorted_measurement_parameters.append(...)` on line 92 stands after
that `raise` inside the same branch, so no branch of the loop ever
appends and the accumulator is returned exactly as it came in. -/
def initLoop (num_center_frequencies : Nat) :
    List ParamTuple → List MeasurementParams → Except PyError (List MeasurementParams)
  | [], acc => .ok acc
  | params :: rest, acc =>
    if hasNone params then
      .error (.typeError
        s!"Wrong number of {firstNoneName params}s, expected {num_center_frequencies}")
    else
      initLoop num_center_frequencies rest acc

/-- `SteppedFrequencyTimeDomainIqAcquisition.__init__` (source lines
71–95), as the map from the four parameter lists to the stored
`sorted_measurement_parameters` (or the exception raised).  CPython's
`list.sort` compares every key as soon as the list has at least two
elements, so a padded `None` center-frequency key (some other list longer
than `fcs`) raises `TypeError` inside the sort itself, before the loop's
own `raise` can name a field; a list of length ≤ 1 is sorted without any
comparison.  Otherwise the tuples are stably sorted ascending by the
frequency key and the validation loop runs. -/
def buildPlan (fcs gains sample_rates durations_ms : List ℚ) :
    Except PyError (List MeasurementParams) :=
  let num_center_frequencies := fcs.length
  let zipped := zipLongest4 fcs gains sample_rates durations_ms
  if 2 ≤ zipped.length ∧ ∃ t ∈ zipped, t.1 = none then
    .error .compareTypeError
  else
    initLoop num_center_frequencies (List.insertionSort fcLE zipped) []

/-! ### The entry point `__call__` (source lines 97–128) -/

/-- Raw IQ samples; the concrete sample values play no role in any claim,
only their count does. -/
abbrev Sample := ℤ

/-- The `measurement_result` dict returned by the inherited
`acquire_data` (source line 106), restricted to the field `__call__`
reads: `measurement_result["data"]`. -/
structure MeasurementResult where
  data : List Sample
deriving DecidableEq, Repr

/-- One SigMF record added to the per-step metadata (kind tag and, for
the record kinds that declare one, a sample count). -/
structure AnnRecord where
  ann_type : String
  sample_count : Nat
deriving DecidableEq, Repr

/-- Modelled from the spec: `get_sigmf_annotation` (source line 122) is
inherited from a class outside this module; per §4.3 it adds per-step
sensor-state and calibration-state records whose declared `sample_count`
equals the number of samples in the step's data. -/
def buildAnnRecords (res : MeasurementResult) : List AnnRecord :=
  [⟨"SensorAnnotation", res.data.length⟩, ⟨"CalibrationAnnotation", res.data.length⟩]

/-- The metadata `sigmf_builder.metadata` holds for one step after the
four builder calls on source lines 118–122. -/
structure StepMetadata where
  recording_id : Nat
  sample_count : Nat
  ann_records : List AnnRecord
deriving DecidableEq, Repr

/-- Modelled from the spec: `get_sigmf_global`,
`get_sigmf_global_measurement`, `get_sigmf_capture` and
`get_sigmf_annotation` (source lines 119–122) are inherited from a class
outside this module; per §4.3 the per-recording measurement record
carries the step's 1-based `recording_id` and the sample count of the
step's data, and the annotation-record list is as in `buildAnnRecords`. -/
def buildStepMetadata (recording_id : Nat) (res : MeasurementResult) : StepMetadata :=
  { recording_id := recording_id
    sample_count := res.data.length
    ann_records := buildAnnRecords res }

/-- The keyword payload of `measurement_action_completed.send` (source
lines 123–128): the task identifier, the step's raw data, and the step's
assembled metadata. -/
structure SentMessage where
  task_id : Nat
  data : List Sample
  metadata : StepMetadata
deriving DecidableEq, Repr

/-- The observable effects of one sweep, in program order: the blocking
device acquisition of a step, the assembly of that step's metadata, and
the `send` publishing that step. -/
inductive SweepEvent where
  | acquireStep (recording_id : Nat)
  | assembleMetadata (recording_id : Nat)
  | publishStep (recording_id : Nat)
deriving DecidableEq, Repr

/-- Modelled from the spec: `test_required_components` (source line 99)
is inherited from a class outside this module; per §4.2 and §7 it raises
a `PreconditionError` when the required acquisition device does not
report ready, before the sweep begins. -/
def testRequiredComponents (ready : Bool) : Except PyError Unit :=
  if ready then .ok () else .error .preconditionError

/-- The body of `__call__`'s loop (source lines 101–128) over the
already `enumerate(…, start=1)`-numbered plan.  Each iteration acquires
(a blocking call on the device), assembles the step's metadata, and
publishes the step's message — strictly in that order, one step after
the other.  Returns the event trace together with the published
messages. -/
def sweepLoop (acquire : MeasurementParams → MeasurementResult) (task_id : Nat) :
    List (Nat × MeasurementParams) → List SweepEvent × List SentMessage
  | [] => ([], [])
  | (recording_id, mp) :: rest =>
    let res := acquire mp
    let md := buildStepMetadata recording_id res
    let next := sweepLoop acquire task_id rest
    (SweepEvent.acquireStep recording_id :: SweepEvent.assembleMetadata recording_id ::
        SweepEvent.publishStep recording_id :: next.1,
     { task_id := task_id, data := res.data, metadata := md } :: next.2)

/-- `SteppedFrequencyTimeDomainIqAcquisition.__call__` (source lines
97–128): first `test_required_components`, then the loop over
`enumerate(self.sorted_measurement_parameters, start=1)`.  Returns the
event trace alongside the outcome, so that an aborted call shows which
effects had already happened (none, when the precondition fails). -/
def runCall (ready : Bool) (acquire : MeasurementParams → MeasurementResult)
    (task_id : Nat) (plan : List MeasurementParams) :
    List SweepEvent × Except PyError (List SentMessage) :=
  match testRequiredComponents ready with
  | .error e => ([], .error e)
  | .ok () =>
    let out := sweepLoop acquire task_id (List.enumFrom 1 plan)
    (out.1, .ok out.2)

/-! ### The `description` property (source lines 134–187) -/

/-- Python's `int()` on a rational: truncation toward zero. -/
def pyInt (q : ℚ) : ℤ := if q < 0 then ⌈q⌉ else ⌊q⌋

/-- The per-step term of the `total_samples` sum (source lines 154–156):
`int(measurement_params.duration_ms / 1e6 * measurement_params.sample_rate)`
— the source divides the millisecond duration by `1e6`. -/
def stepSamples (p : MeasurementParams) : ℤ :=
  pyInt (p.duration_ms / 1000000 * p.sample_rate)

/-- `total_samples` as the `description` loop accumulates it. -/
def totalSamplesCode (mpl : List MeasurementParams) : ℤ :=
  mpl.foldl (fun acc p => acc + stepSamples p) 0

/-- `total_samples` as the spec's words state it (§4.5):
`Σ floor(duration_ms_i / 1000 * sample_rate_i)`.  Written from the spec,
for comparison against `totalSamplesCode`. -/
def totalSamplesSpec (mpl : List MeasurementParams) : ℤ :=
  (mpl.map fun p => ⌊p.duration_ms / 1000 * p.sample_rate⌋).sum

/-- The per-step line `acq_plan_template.format(...)` (source lines
139–153).  The `:.2f` fixed-point rendering is abstracted by `toString`
of the rational; no claim depends on the rendered digits. -/
def acqPlanLine (p : MeasurementParams) : String :=
  let fcMHz := p.center_frequency / 1000000
  let g := p.gain
  let srMsps := p.sample_rate / 1000000
  let dur := p.duration_ms
  s!"1. Tune to {fcMHz} MHz, set gain to {g} dB, and acquire at {srMsps} Msps for {dur} ms\n"

/-- The `acquisition_plan` variable of `description` (source lines
138–153): initialized to the empty string; each loop iteration calls
`acq_plan_template.format(...)` but discards the returned string instead
of appending it, so the variable is never updated. -/
def acquisitionPlanText (mpl : List MeasurementParams) : String :=
  mpl.foldl (fun acc p => let _line := acqPlanLine p; acc) ""

/-- The entries of the `defs` dict that `description` derives from the
step list (source lines 171–184). -/
structure DescStats where
  center_frequencies : String
  acquisition_plan : String
  min_duration_ms : ℚ
  total_samples : ℤ
  filesize_mb : ℚ
deriving DecidableEq, Repr

/-- The rendering of one center frequency inside the `defs` dict
(source lines 174–179), `:.2f` again abstracted by `toString`. -/
def centerFreqText (p : MeasurementParams) : String :=
  let fcMHz := p.center_frequency / 1000000
  s!"{fcMHz} MHz"

/-- The body of `description` (source lines 138–187), as a function of
the value the source expects to find in `self.measurement_params_list`:
the loop accumulates `total_samples` while discarding each formatted plan
line; first/last indexing computes the (unused) band edges and raises
`IndexError` on an empty list; then the `defs` dict is assembled. -/
def descriptionBody (mpl : List MeasurementParams) : Except PyError DescStats :=
  let acquisition_plan := acquisitionPlanText mpl
  let total_samples := totalSamplesCode mpl
  match mpl with
  | [] => .error .indexError
  | p0 :: rest =>
    let plast := (p0 :: rest).getLast (List.cons_ne_nil p0 rest)
    let _f_low_edge := (p0.center_frequency - p0.sample_rate / 2) / 1000000
    let _f_high_edge := (plast.center_frequency - plast.sample_rate / 2) / 1000000
    let min_duration_ms := ((p0 :: rest).map fun p => p.duration_ms).sum
    let filesize_mb := ((total_samples * 8 : ℤ) : ℚ) / 1000000
    .ok { center_frequencies := String.intercalate ", " ((p0 :: rest).map centerFreqText)
          acquisition_plan := acquisition_plan
          min_duration_ms := min_duration_ms
          total_samples := total_samples
          filesize_mb := filesize_mb }

/-- A Python attribute value on the instance; only the stored plan is
ever read as a list by the code under verification, every other
attribute is left abstract. -/
inductive AttrVal where
  | planVal (plan : List MeasurementParams)
  | otherVal
deriving DecidableEq, Repr

/-- Modelled from the spec: `super().__init__()` (source line 72) chains
to constructors outside this module (`SingleFrequencyTimeDomainIqAcquisition`
and the `Action` interface); neither they per the spec (§2–§4) nor this
module assigns an attribute named `measurement_params_list`. -/
def parentInitAttrs : String → Option AttrVal := fun _ => none

/-- The attribute table `__init__` leaves on a constructed instance
(source lines 71–95): `parameters`, `sorted_measurement_parameters`
(holding the plan), `radio` and `num_center_frequencies`, on top of
whatever the chained parent constructors assigned. -/
def constructedAttrs (plan : List MeasurementParams) : String → Option AttrVal :=
  fun attr =>
    if attr = "sorted_measurement_parameters" then some (.planVal plan)
    else if attr = "parameters" ∨ attr = "radio" ∨ attr = "num_center_frequencies" then
      some .otherVal
    else parentInitAttrs attr

/-- The `description` property (source lines 134–187): line 145 reads
`self.measurement_params_list`, an attribute lookup on the instance; a
missing attribute raises `AttributeError`, otherwise the body runs on
the found list. -/
def descriptionProperty (attrs : String → Option AttrVal) : Except PyError DescStats :=
  match attrs "measurement_params_list" with
  | none => .error (.attributeError "measurement_params_list")
  | some (.planVal mpl) => descriptionBody mpl
  | some .otherVal => .error (.typeError "object is not iterable")

/-! ### Lemmas about the constructor embedding -/

lemma padTo_eq_map_some {l : List ℚ} {n : Nat} (h : l.length = n) :
    padTo n l = l.map some := by
  simp [padTo, h]

lemma length_le_maxLen4_a {a b c d : List ℚ} : a.length ≤ maxLen4 a b c d := by
  unfold maxLen4; omega

lemma length_le_maxLen4_b {a b c d : List ℚ} : b.length ≤ maxLen4 a b c d := by
  unfold maxLen4; omega

lemma length_le_maxLen4_c {a b c d : List ℚ} : c.length ≤ maxLen4 a b c d := by
  unfold maxLen4; omega

lemma length_le_maxLen4_d {a b c d : List ℚ} : d.length ≤ maxLen4 a b c d := by
  unfold maxLen4; omega

lemma padTo_length {l : List ℚ} {n : Nat} (h : l.length ≤ n) :
    (padTo n l).length = n := by
  simp [padTo]; omega

lemma padTo_getElem?_of_ge {l : List ℚ} {n i : Nat} (h1 : l.length ≤ i) (h2 : i < n) :
    (padTo n l)[i]? = some none := by
  unfold padTo
  rw [List.getElem?_append_right (by simpa using h1), List.getElem?_replicate,
    if_pos (by simp; omega)]

/-- The tuple of `zip_longest` at any in-range index, with its four
components located in the four padded lists. -/
lemma exists_tuple_at {a b c d : List ℚ} {i : Nat} (hi : i < maxLen4 a b c d) :
    ∃ x y z w, (zipLongest4 a b c d)[i]? = some (x, y, z, w) ∧
      (padTo (maxLen4 a b c d) a)[i]? = some x ∧
      (padTo (maxLen4 a b c d) b)[i]? = some y ∧
      (padTo (maxLen4 a b c d) c)[i]? = some z ∧
      (padTo (maxLen4 a b c d) d)[i]? = some w := by
  set n := maxLen4 a b c d with hn
  have bx : i < (padTo n a).length := by rw [padTo_length length_le_maxLen4_a]; exact hi
  have by' : i < (padTo n b).length := by rw [padTo_length length_le_maxLen4_b]; exact hi
  have bz : i < (padTo n c).length := by rw [padTo_length length_le_maxLen4_c]; exact hi
  have bw : i < (padTo n d).length := by rw [padTo_length length_le_maxLen4_d]; exact hi
  refine ⟨(padTo n a)[i], (padTo n b)[i], (padTo n c)[i], (padTo n d)[i], ?_, ?_, ?_, ?_, ?_⟩
  · simp only [zipLongest4, ← hn]
    rw [List.getElem?_zip_eq_some]
    refine ⟨List.getElem?_eq_getElem bx, ?_⟩
    rw [List.getElem?_zip_eq_some]
    refine ⟨List.getElem?_eq_getElem by', ?_⟩
    rw [List.getElem?_zip_eq_some]
    exact ⟨List.getElem?_eq_getElem bz, List.getElem?_eq_getElem bw⟩
  · exact List.getElem?_eq_getElem bx
  · exact List.getElem?_eq_getElem by'
  · exact List.getElem?_eq_getElem bz
  · exact List.getElem?_eq_getElem bw

/-- With four equal-length inputs nothing is padded, so no zipped tuple
holds a `None`. -/
lemma zipLongest4_no_none {fcs gains sample_rates durations_ms : List ℚ}
    (hg : gains.length = fcs.length) (hs : sample_rates.length = fcs.length)
    (hd : durations_ms.length = fcs.length) :
    ∀ t ∈ zipLongest4 fcs gains sample_rates durations_ms, ¬ hasNone t := by
  intro t ht
  have hn : maxLen4 fcs gains sample_rates durations_ms = fcs.length := by
    unfold maxLen4; omega
  simp only [zipLongest4, hn] at ht
  rw [padTo_eq_map_some rfl, padTo_eq_map_some hg, padTo_eq_map_some hs,
    padTo_eq_map_some hd] at ht
  obtain ⟨h1, h2⟩ := List.of_mem_zip ht
  obtain ⟨h2, h3⟩ := List.of_mem_zip h2
  obtain ⟨h3, h4⟩ := List.of_mem_zip h3
  simp only [List.mem_map] at h1 h2 h3 h4
  obtain ⟨x1, -, e1⟩ := h1
  obtain ⟨x2, -, e2⟩ := h2
  obtain ⟨x3, -, e3⟩ := h3
  obtain ⟨x4, -, e4⟩ := h4
  rintro (h | h | h | h) <;> simp_all

/-- The validation loop succeeds (returning its accumulator untouched)
when no tuple holds a `None`. -/
lemma initLoop_ok_of_no_none (n : Nat) :
    ∀ (l : List ParamTuple) (acc : List MeasurementParams),
      (∀ t ∈ l, ¬ hasNone t) → initLoop n l acc = .ok acc := by
  intro l
  induction l with
  | nil => intro acc _; rfl
  | cons t rest ih =>
    intro acc h
    simp only [initLoop]
    rw [if_neg (h t (List.mem_cons_self t rest))]
    exact ih acc fun u hu => h u (List.mem_cons_of_mem t hu)

/-- Whatever the validation loop returns on success is exactly the
accumulator it was handed: no branch of the loop appends. -/
lemma initLoop_ok_acc (n : Nat) :
    ∀ (l : List ParamTuple) (acc res : List MeasurementParams),
      initLoop n l acc = .ok res → res = acc := by
  intro l
  induction l with
  | nil => intro acc res h; cases h; rfl
  | cons t rest ih =>
    intro acc res h
    simp only [initLoop] at h
    split at h
    · cases h
    · exact ih acc res h

/-- The validation loop fails as soon as some tuple of the list holds a
`None`, and the error it raises is the field-naming `TypeError` of
source lines 88–90 for some parameter field. -/
lemma initLoop_error_field (n : Nat) :
    ∀ (l : List ParamTuple) (acc : List MeasurementParams) (t : ParamTuple),
      t ∈ l → hasNone t →
      ∃ field : String, initLoop n l acc =
        .error (.typeError s!"Wrong number of {field}s, expected {n}") := by
  intro l
  induction l with
  | nil => intro acc t ht _; cases ht
  | cons u rest ih =>
    intro acc t ht hn
    by_cases hu : hasNone u
    · exact ⟨firstNoneName u, by simp only [initLoop]; rw [if_pos hu]⟩
    · rcases List.mem_cons.1 ht with h | h
      · exact absurd (h ▸ hn) hu
      · obtain ⟨field, he⟩ := ih acc t h hn
        refine ⟨field, ?_⟩
        simp only [initLoop]
        rw [if_neg hu]
        exact he

/-- The `zip_longest` result has the length of the longest input. -/
lemma length_zipLongest4 {a b c d : List ℚ} :
    (zipLongest4 a b c d).length = maxLen4 a b c d := by
  simp only [zipLongest4, List.length_zip, padTo_length length_le_maxLen4_a,
    padTo_length length_le_maxLen4_b, padTo_length length_le_maxLen4_c,
    padTo_length length_le_maxLen4_d, min_self]

/-- When some other input is longer than `fcs`, some zipped tuple has a
`None` frequency key (the `None`-padded sort key). -/
lemma exists_fc_none_of_short {fcs gains sample_rates durations_ms : List ℚ}
    (h : fcs.length < maxLen4 fcs gains sample_rates durations_ms) :
    ∃ t ∈ zipLongest4 fcs gains sample_rates durations_ms, t.1 = none := by
  have hi : maxLen4 fcs gains sample_rates durations_ms - 1 <
      maxLen4 fcs gains sample_rates durations_ms := by omega
  obtain ⟨x, y, z, w, hz, hx, -, -, -⟩ := exists_tuple_at hi
  have hpad := padTo_getElem?_of_ge (l := fcs) (by omega) hi
  rw [hx] at hpad
  exact ⟨(x, y, z, w), List.getElem?_mem hz, Option.some.inj hpad⟩

/-- When `fcs` is a longest input, nothing pads the frequency keys, so no
zipped tuple has a `None` frequency key. -/
lemma no_fc_none_of_full {fcs gains sample_rates durations_ms : List ℚ}
    (h : fcs.length = maxLen4 fcs gains sample_rates durations_ms) :
    ∀ t ∈ zipLongest4 fcs gains sample_rates durations_ms, t.1 ≠ none := by
  intro t ht
  have hn : maxLen4 fcs gains sample_rates durations_ms = fcs.length := h.symm
  simp only [zipLongest4, hn] at ht
  rw [padTo_eq_map_some rfl] at ht
  obtain ⟨h1, -⟩ := List.of_mem_zip ht
  simp only [List.mem_map] at h1
  obtain ⟨x, -, e⟩ := h1
  rw [← e]
  simp

/-- Some zipped tuple holds a `None` whenever the four input lists do not
all share the length of `fcs`. -/
lemma exists_none_tuple_of_mismatch {fcs gains sample_rates durations_ms : List ℚ}
    (hmis : ¬(gains.length = fcs.length ∧ sample_rates.length = fcs.length ∧
        durations_ms.length = fcs.length)) :
    ∃ t ∈ zipLongest4 fcs gains sample_rates durations_ms, hasNone t := by
  set n := maxLen4 fcs gains sample_rates durations_ms with hn
  have ha : fcs.length ≤ n := length_le_maxLen4_a
  have hb : gains.length ≤ n := length_le_maxLen4_b
  have hc : sample_rates.length ≤ n := length_le_maxLen4_c
  have hd : durations_ms.length ≤ n := length_le_maxLen4_d
  have key : fcs.length < n ∨ gains.length < n ∨ sample_rates.length < n ∨
      durations_ms.length < n := by
    by_contra hno
    push_neg at hno
    refine hmis ⟨by omega, by omega, by omega⟩
  have hi : n - 1 < n := by omega
  obtain ⟨x, y, z, w, hz, hx, hy, hzc, hw⟩ := exists_tuple_at hi
  refine ⟨(x, y, z, w), List.getElem?_mem hz, ?_⟩
  rcases key with h | h | h | h
  · have := padTo_getElem?_of_ge (l := fcs) (by omega) hi
    rw [hx] at this
    exact Or.inl (Option.some.inj this)
  · have := padTo_getElem?_of_ge (l := gains) (by omega) hi
    rw [hy] at this
    exact Or.inr (Or.inl (Option.some.inj this))
  · have := padTo_getElem?_of_ge (l := sample_rates) (by omega) hi
    rw [hzc] at this
    exact Or.inr (Or.inr (Or.inl (Option.some.inj this)))
  · have := padTo_getElem?_of_ge (l := durations_ms) (by omega) hi
    rw [hw] at this
    exact Or.inr (Or.inr (Or.inr (Option.some.inj this)))

/-! ### Claims C1, C2, C4 -/

/-- **C2.** The `append` on source line 92 stands after the `raise` on
line 90 inside the same branch, so it never executes for any input: every
successful construction from equal-length inputs stores the empty list as
`sorted_measurement_parameters`, and any successful construction at all
returns the accumulator (the empty list) unchanged. -/
theorem c2_append_after_raise_is_dead :
    (∀ fcs gains sample_rates durations_ms : List ℚ,
        gains.length = fcs.length → sample_rates.length = fcs.length →
        durations_ms.length = fcs.length →
        buildPlan fcs gains sample_rates durations_ms = Except.ok []) ∧
    (∀ (fcs gains sample_rates durations_ms : List ℚ)
        (plan : List MeasurementParams),
        buildPlan fcs gains sample_rates durations_ms = Except.ok plan →
        plan = []) := by
  constructor
  · intro fcs gains sample_rates durations_ms hg hs hd
    have hno := zipLongest4_no_none hg hs hd
    simp only [buildPlan]
    rw [if_neg fun hcon => hno _ hcon.2.choose_spec.1 (Or.inl hcon.2.choose_spec.2)]
    exact initLoop_ok_of_no_none _ _ _
      fun t ht => hno t ((List.mem_insertionSort fcLE).1 ht)
  · intro fcs gains sample_rates durations_ms plan h
    simp only [buildPlan] at h
    split at h
    · cases h
    · exact initLoop_ok_acc _ _ _ _ h

/-- Witness for C2 at a concrete input: two valid steps construct the
empty plan. -/
theorem c2_append_after_raise_is_dead_witness :
    buildPlan [100, 50] [1, 2] [1000, 1000] [10, 10] = Except.ok [] :=
  c2_append_after_raise_is_dead.1 [100, 50] [1, 2] [1000, 1000] [10, 10] rfl rfl rfl

/-- **C1 (code bug).** The claim asks for exactly `N` sorted records; on
the valid single-step input `fcs=[100]`, `gains=[1]`,
`sample_rates=[1000]`, `durations_ms=[10]` the constructor succeeds but
stores the empty plan (0 records, not 1), because the `append` on line 92
sits after the `raise` on line 90. -/
theorem c1_valid_input_yields_empty_plan :
    buildPlan [100] [1] [1000] [10] = Except.ok [] ∧
    ([] : List MeasurementParams).length ≠ 1 :=
  ⟨rfl, by decide⟩

/-- **C4 (counterexample).** With `fcs` shorter than the other three
lists (`fcs=[1]`, the rest of length 2), `zip_longest` pads the frequency
key with `None`, and `list.sort` raises the comparison `TypeError` —
which is not the field-naming message the claim promises. -/
theorem c4_short_fcs_raises_in_sort :
    buildPlan [1] [10, 20] [10, 20] [5, 5] = Except.error PyError.compareTypeError ∧
    PyError.compareTypeError ≠
      PyError.typeError "Wrong number of center_frequencys, expected 1" :=
  ⟨rfl, fun h => PyError.noConfusion h⟩

/-- **C4 (amended).** Whenever the four input lists do not all share the
length of `fcs`, construction fails with a `TypeError` — before any
hardware interaction, so nothing is published.  Which `TypeError`
depends on where the padding lands: when some other list is longer than
`fcs` and `zip_longest` yields at least two tuples, `list.sort` raises
the comparison `TypeError` on the `None`-padded frequency keys, naming
no field; in every other mismatch the validation loop raises
`"Wrong number of {field}s, expected {len(fcs)}"` for some parameter
field (the first `None` position of the first frequency-sorted tuple
holding a `None` — not necessarily the first diverging field in
parameter order). -/
theorem c4_amended_mismatch_raises :
    ∀ fcs gains sample_rates durations_ms : List ℚ,
      ¬(gains.length = fcs.length ∧ sample_rates.length = fcs.length ∧
          durations_ms.length = fcs.length) →
      (2 ≤ maxLen4 fcs gains sample_rates durations_ms ∧
          fcs.length < maxLen4 fcs gains sample_rates durations_ms →
        buildPlan fcs gains sample_rates durations_ms =
          Except.error PyError.compareTypeError) ∧
      (¬(2 ≤ maxLen4 fcs gains sample_rates durations_ms ∧
          fcs.length < maxLen4 fcs gains sample_rates durations_ms) →
        ∃ field : String, buildPlan fcs gains sample_rates durations_ms =
          Except.error (.typeError
            s!"Wrong number of {field}s, expected {fcs.length}")) := by
  intro fcs gains sample_rates durations_ms hmis
  constructor
  · rintro ⟨h2, hlt⟩
    obtain ⟨t, ht, htfc⟩ := exists_fc_none_of_short hlt
    simp only [buildPlan]
    rw [if_pos ⟨by rw [length_zipLongest4]; exact h2, t, ht, htfc⟩]
  · intro hnot
    have hle : fcs.length ≤ maxLen4 fcs gains sample_rates durations_ms :=
      length_le_maxLen4_a
    have hcase : fcs.length = maxLen4 fcs gains sample_rates durations_ms ∨
        maxLen4 fcs gains sample_rates durations_ms < 2 := by omega
    obtain ⟨t, ht, hn⟩ := exists_none_tuple_of_mismatch hmis
    have hcond : ¬(2 ≤ (zipLongest4 fcs gains sample_rates durations_ms).length ∧
        ∃ u ∈ zipLongest4 fcs gains sample_rates durations_ms, u.1 = none) := by
      rw [length_zipLongest4]
      rcases hcase with h | h
      · rintro ⟨-, u, hu, hufc⟩
        exact no_fc_none_of_full h u hu hufc
      · rintro ⟨h2, -⟩
        omega
    simp only [buildPlan]
    rw [if_neg hcond]
    exact initLoop_error_field _ _ _ t ((List.mem_insertionSort fcLE).2 ht) hn

/-- Witness for C4 (amended), exercising both clauses at concrete
inputs: `fcs=[1]` against three length-2 lists hits the sort comparison
`TypeError`; `fcs=[]` against `gains=[5]` (a single padded tuple, sorted
without comparison) hits the loop's field-naming `TypeError`. -/
theorem c4_amended_mismatch_raises_witness :
    buildPlan [1] [10, 20] [10, 20] [5, 5] = Except.error PyError.compareTypeError ∧
    ∃ field : String, buildPlan [] [5] [] [] =
      Except.error (.typeError s!"Wrong number of {field}s, expected {0}") :=
  ⟨(c4_amended_mismatch_raises [1] [10, 20] [10, 20] [5, 5] (by decide)).1 (by decide),
   (c4_amended_mismatch_raises [] [5] [] [] (by decide)).2 (by decide)⟩

/-! ### Lemmas about the sweep loop -/

/-- Shape of the sweep over `enumerate(plan, start=k)`: the event trace
is the per-step blocks `acquire, assemble, publish` for ids
`k, k+1, …`, and the published messages carry those same ids. -/
lemma sweepLoop_enumFrom (acquire : MeasurementParams → MeasurementResult)
    (task_id : Nat) :
    ∀ (plan : List MeasurementParams) (k : Nat),
      (sweepLoop acquire task_id (List.enumFrom k plan)).1 =
        (List.range' k plan.length).flatMap
          (fun i => [SweepEvent.acquireStep i, SweepEvent.assembleMetadata i,
            SweepEvent.publishStep i]) ∧
      ((sweepLoop acquire task_id (List.enumFrom k plan)).2).map
          (fun m => m.metadata.recording_id) = List.range' k plan.length ∧
      (sweepLoop acquire task_id (List.enumFrom k plan)).2.length = plan.length := by
  intro plan
  induction plan with
  | nil => intro k; exact ⟨rfl, rfl, rfl⟩
  | cons p rest ih =>
    intro k
    obtain ⟨h1, h2, h3⟩ := ih (k + 1)
    refine ⟨?_, ?_, ?_⟩ <;>
      simp [sweepLoop, List.enumFrom, List.range', buildStepMetadata, h1, h2, h3]

/-- Every message the sweep loop publishes carries, in each of its
declared-count records, the length of that step's own data. -/
lemma sweepLoop_ann_counts (acquire : MeasurementParams → MeasurementResult)
    (task_id : Nat) :
    ∀ (l : List (Nat × MeasurementParams)) (m : SentMessage),
      m ∈ (sweepLoop acquire task_id l).2 →
      ∀ a ∈ m.metadata.ann_records, a.sample_count = m.data.length := by
  intro l
  induction l with
  | nil => intro m hm; cases hm
  | cons p rest ih =>
    intro m hm a ha
    rcases List.mem_cons.1 hm with h | h
    · subst h
      simp only [buildStepMetadata, buildAnnRecords] at ha
      rcases List.mem_cons.1 ha with h' | h'
      · subst h'; rfl
      · rcases List.mem_cons.1 h' with h'' | h''
        · subst h''; rfl
        · cases h''
    · exact ih m h a ha

/-! ### Claims C3, C6, C7, C8 -/

/-- **C3.** One invocation of `__call__` on a ready device publishes
exactly one message per plan step, and the `recording_id` carried in the
per-step metadata runs `1, 2, …, N` in plan order — `enumerate(…,
start=1)` on source lines 101–103 — with nothing skipped or reused. -/
theorem c3_recording_ids_are_one_to_n :
    ∀ (acquire : MeasurementParams → MeasurementResult) (task_id : Nat)
      (plan : List MeasurementParams),
      ∃ msgs : List SentMessage,
        (runCall true acquire task_id plan).2 = Except.ok msgs ∧
        msgs.length = plan.length ∧
        msgs.map (fun m => m.metadata.recording_id) = List.range' 1 plan.length := by
  intro acquire task_id plan
  obtain ⟨-, h2, h3⟩ := sweepLoop_enumFrom acquire task_id plan 1
  exact ⟨(sweepLoop acquire task_id (List.enumFrom 1 plan)).2, rfl, h3, h2⟩

/-- **C6.** When the required components do not report ready, `__call__`
fails with a `PreconditionError` raised by `test_required_components`
(source line 99) before the loop: the event trace is empty, so the
acquire collaborator is never invoked and no message is published for
any step. -/
theorem c6_not_ready_fails_before_any_step :
    ∀ (acquire : MeasurementParams → MeasurementResult) (task_id : Nat)
      (plan : List MeasurementParams),
      runCall false acquire task_id plan = ([], Except.error PyError.preconditionError) :=
  fun _ _ _ => rfl

/-- **C7.** The event trace of a sweep is exactly the concatenation, in
ascending step order, of the per-step blocks "acquire, assemble
metadata, publish": each step's message is published exactly once,
immediately after that step's metadata is assembled and before step
`i+1`'s acquisition begins, so delivery order equals completion order
and steps already published stand on their own. -/
theorem c7_publish_follows_each_step :
    ∀ (acquire : MeasurementParams → MeasurementResult) (task_id : Nat)
      (plan : List MeasurementParams),
      (runCall true acquire task_id plan).1 =
        (List.range' 1 plan.length).flatMap
          (fun i => [SweepEvent.acquireStep i, SweepEvent.assembleMetadata i,
            SweepEvent.publishStep i]) := by
  intro acquire task_id plan
  exact (sweepLoop_enumFrom acquire task_id plan 1).1

/-- **C8.** In every message a sweep publishes, every sensor-state and
calibration-state record declares a `sample_count` equal to the length
of that step's data array. -/
theorem c8_ann_sample_count_matches_data :
    ∀ (acquire : MeasurementParams → MeasurementResult) (task_id : Nat)
      (plan : List MeasurementParams) (msgs : List SentMessage),
      (runCall true acquire task_id plan).2 = Except.ok msgs →
      ∀ m ∈ msgs, ∀ a ∈ m.metadata.ann_records, a.sample_count = m.data.length := by
  intro acquire task_id plan msgs h m hm a ha
  simp only [runCall, testRequiredComponents, if_pos] at h
  cases h
  exact sweepLoop_ann_counts acquire task_id _ m hm a ha

/-- Witness for C8 at a concrete input: a one-step sweep whose
acquisition returns three samples declares `sample_count = 3` on its
sensor-state record. -/
theorem c8_ann_sample_count_matches_data_witness :
    (AnnRecord.mk "SensorAnnotation" 3).sample_count =
      (SentMessage.mk 7 [1, 2, 3] (buildStepMetadata 1 ⟨[1, 2, 3]⟩)).data.length :=
  c8_ann_sample_count_matches_data (fun _ => ⟨[1, 2, 3]⟩) 7 [⟨2400000000, 10, 1000000, 100⟩]
    [SentMessage.mk 7 [1, 2, 3] (buildStepMetadata 1 ⟨[1, 2, 3]⟩)] rfl
    (SentMessage.mk 7 [1, 2, 3] (buildStepMetadata 1 ⟨[1, 2, 3]⟩)) (by simp)
    (AnnRecord.mk "SensorAnnotation" 3) (by simp [buildStepMetadata, buildAnnRecords])

/-! ### Claims C5, C9, C10 -/

/-- **C5 (code bug).** For the claim's single step with
`duration_ms = 100` and `sample_rate = 1e6`, the source's per-step term
`int(duration_ms / 1e6 * sample_rate)` (line 155) yields `100`, while
the claimed statistic `floor(duration_ms / 1000 * sample_rate)` is
`100_000`: the source divides the millisecond duration by `1e6` where
the claimed conversion divides by `1000`. -/
theorem c5_total_samples_millisecond_conversion :
    totalSamplesCode [⟨2400000000, 10, 1000000, 100⟩] = 100 ∧
    totalSamplesSpec [⟨2400000000, 10, 1000000, 100⟩] = 100000 ∧
    (100 : ℤ) ≠ 100000 := by
  refine ⟨?_, ?_, by decide⟩
  · show (0 : ℤ) + pyInt ((100 : ℚ) / 1000000 * 1000000) = 100
    norm_num [pyInt]
  · show (⌊(100 : ℚ) / 1000 * 1000000⌋ + 0 : ℤ) = 100000
    norm_num

/-- **C9.** `description` iterates `self.measurement_params_list`
(source line 145), but the constructor stores the plan under
`sorted_measurement_parameters` (line 74) and no constructor in the
chain assigns `measurement_params_list`; the lookup therefore raises
`AttributeError` on every constructed instance, whatever plan it holds,
and the description statistics are never returned. -/
theorem c9_description_raises_attribute_lookup :
    ∀ plan : List MeasurementParams,
      descriptionProperty (constructedAttrs plan) =
        Except.error (PyError.attributeError "measurement_params_list") :=
  fun _ => rfl

/-- **C10.** The formatted per-step line (source line 146) is discarded
rather than accumulated, so the `acquisition_plan` value of the
description body is the empty string for every plan: the variable
initialized on line 138 is never updated, and every successfully
assembled `defs` dict carries `acquisition_plan = ""`. -/
theorem c10_acquisition_plan_stays_empty :
    ∀ mpl : List MeasurementParams,
      acquisitionPlanText mpl = "" ∧
      (descriptionBody mpl).map (fun s => s.acquisition_plan) =
        (descriptionBody mpl).map (fun _ => "") := by
  have hfold : ∀ (mpl : List MeasurementParams) (s : String),
      mpl.foldl (fun acc p => let _line := acqPlanLine p; acc) s = s := by
    intro mpl
    induction mpl with
    | nil => intro s; rfl
    | cons p rest ih => intro s; exact ih s
  intro mpl
  refine ⟨hfold mpl "", ?_⟩
  cases mpl with
  | nil => rfl
  | cons p rest =>
    simp only [descriptionBody, Except.map, acquisitionPlanText, hfold]

end ScosSteppedIq
